import Mathlib

/-!
Verification of the Conway Game of Life core of this repository against its
design specification.  Two source revisions implement the automaton:

* scripts/life.py — nested-loop neighbour counting over Python lists;
* scripts/game_of_life/runme_numpy.py — a GameOfLife dataclass whose step
  uses a scipy convolution for the neighbour counts.

Grids are embedded as row-major lists of rows of integer cells.  The numpy
state additionally records its dimensionality, because reduce() assigns
np.array([0]) — a 1-dimensional array — on extinction, and that shape is
observable (a later expand() reads state.shape[1]).
-/

/-- A 2-D grid of integer cells, row major: a Python list of lists, or the
rows of a 2-D numpy array. -/
abbrev Mat := List (List Int)

/-- Element access estado[f][c]; call sites guard the bounds exactly as the
sources do, so the defaults are never read in-bounds. -/
def cellN (m : Mat) (i j : Nat) : Int := (m.getD i []).getD j 0

/-- Number of columns as the sources measure it: len(estado[0]). -/
def cols (m : Mat) : Nat := (m.headD []).length

/-- Every row has the length of the first row. -/
abbrev rectangular (m : Mat) : Prop := ∀ r ∈ m, r.length = cols m

/-- Every stored value is 0 (DEAD) or 1 (ALIVE). -/
abbrev cells01 (m : Mat) : Prop := ∀ r ∈ m, ∀ v ∈ r, v = 0 ∨ v = 1

/-- A well-formed grid value: rectangular with cells in {0,1}. -/
abbrev valid01 (m : Mat) : Prop := rectangular m ∧ cells01 m

namespace LifePy

/-- scripts/life.py lines 15-29, contar_vecinos: scan the 3×3 window around
(fila, columna), skipping the centre and the positions outside the grid,
counting the cells equal to 1. -/
def contar_vecinos (estado : Mat) (fila columna : Int) : Nat :=
  (([fila - 1, fila, fila + 1]).flatMap fun f =>
      ([columna - 1, columna, columna + 1]).map fun c => (f, c)).countP fun p =>
    decide (¬(p.1 = fila ∧ p.2 = columna)
      ∧ 0 ≤ p.1 ∧ p.1 < (estado.length : Int)
      ∧ 0 ≤ p.2 ∧ p.2 < (cols estado : Int)
      ∧ cellN estado p.1.toNat p.2.toNat = 1)

/-- scripts/life.py lines 53-74, expandir: an (n+2)×(m+2) matrix of zeros
whose interior is estado. -/
def expandir (estado : Mat) : Mat :=
  (List.range (estado.length + 2)).map fun f =>
    (List.range (cols estado + 2)).map fun c =>
      if 1 ≤ f ∧ f ≤ estado.length ∧ 1 ≤ c ∧ c ≤ cols estado then
        cellN estado (f - 1) (c - 1)
      else 0

/-- scripts/life.py lines 154-173, evolucionar: expand, then fill a fresh
zero matrix (crear_nuevo_estado) cell by cell from the expanded snapshot. -/
def evolucionar (estado : Mat) : Mat :=
  let e := expandir estado
  (List.range e.length).map fun (f : Nat) =>
    (List.range (cols e)).map fun (c : Nat) =>
      let n_vecinos := contar_vecinos e (f : Int) (c : Int)
      if cellN e f c = 1 then
        if n_vecinos < 2 ∨ n_vecinos > 3 then 0 else 1
      else
        if n_vecinos = 3 then 1 else 0

/-- Row fila of estado contains only zeros (the inner for/break scan of
reducir over the columns). -/
def rowZero (estado : Mat) (fila : Nat) : Bool :=
  (List.range (cols estado)).all fun columna => cellN estado fila columna == 0

/-- Column columna of estado contains only zeros. -/
def colZero (estado : Mat) (columna : Nat) : Bool :=
  (List.range estado.length).all fun fila => cellN estado fila columna == 0

/-- filas_sobrantes_superior: leading all-zero rows. -/
def filasSup (estado : Mat) : Nat :=
  ((List.range estado.length).takeWhile fun f => rowZero estado f).length

/-- filas_sobrantes_inferior: trailing all-zero rows, scanned from the last
row downwards (range(n_filas - 1, -1, -1)). -/
def filasInf (estado : Mat) : Nat :=
  (((List.range estado.length).map fun t => estado.length - 1 - t).takeWhile
    fun f => rowZero estado f).length

/-- columnas_sobrantes_izquierda: leading all-zero columns. -/
def colsIzq (estado : Mat) : Nat :=
  ((List.range (cols estado)).takeWhile fun c => colZero estado c).length

/-- columnas_sobrantes_derecha: trailing all-zero columns, scanned from the
last column downwards. -/
def colsDer (estado : Mat) : Nat :=
  (((List.range (cols estado)).map fun t => cols estado - 1 - t).takeWhile
    fun c => colZero estado c).length

/-- scripts/life.py lines 76-151, reducir: slice out the live bounding box;
when the boundaries cross (no live cell) the result is [[0]]. -/
def reducir (estado : Mat) : Mat :=
  let fila_inicio := filasSup estado
  let fila_final := estado.length - filasInf estado
  let columna_inicio := colsIzq estado
  let columna_final := cols estado - colsDer estado
  if fila_inicio ≥ fila_final ∨ columna_inicio ≥ columna_final then [[0]]
  else
    (List.range (fila_final - fila_inicio)).map fun f =>
      (List.range (columna_final - columna_inicio)).map fun c =>
        cellN estado (fila_inicio + f) (columna_inicio + c)

/-- scripts/life.py lines 176-183, contar_poblacion: count the cells equal
to 1. -/
def contar_poblacion (estado : Mat) : Nat :=
  (estado.map fun fila => fila.countP fun celula => celula == 1).sum

/-- One iteration of the life.py main loop (lines 198-200): evolucionar then
reducir. -/
def step (estado : Mat) : Mat := reducir (evolucionar estado)

end LifePy

/-- A numpy array as runme_numpy.py uses one: 2-dimensional (the validated
grid) or 1-dimensional (what np.array([0]) builds in reduce()). -/
inductive NpArr where
  | mat : Mat → NpArr
  | vec : List Int → NpArr
deriving DecidableEq, Repr

/-- scripts/game_of_life/runme_numpy.py lines 17-64: the GameOfLife
dataclass fields. -/
structure GameOfLife where
  state : NpArr
  generation : Nat := 0
  max_generations : Int := 151
  dead_cell_char : Char := ' '
  live_cell_char : Char := '࿕'
deriving DecidableEq, Repr

/-- Spec section 7: the construction failure taxonomy. -/
inductive ConstructionError where
  | NotRectangular
  | InvalidCellValue
  | InvalidGenerationLimit
deriving DecidableEq, Repr

namespace GameOfLife

/-- Lines 67-87: np.array over the nested list followed by the
__post_init__ validation, in source order.  An empty or ragged list does not
form a 2-D array (the ndim check, or np.array itself, rejects it), then
every cell must be 0 or 1, then max_generations must be positive. -/
def make (initial_state : List (List Int)) (max_generations : Int) :
    Except ConstructionError GameOfLife :=
  if initial_state.isEmpty
      ∨ ¬ (initial_state.all fun r => r.length == cols initial_state) then
    .error .NotRectangular
  else if ¬ (initial_state.all fun r => r.all fun v => v == 0 || v == 1) then
    .error .InvalidCellValue
  else if max_generations ≤ 0 then
    .error .InvalidGenerationLimit
  else
    .ok { state := .mat initial_state, max_generations := max_generations }

/-- Lines 84-87, from_list: construct with the default limit 151. -/
def from_list (initial_state : List (List Int)) :
    Except ConstructionError GameOfLife :=
  make initial_state 151

/-- np.sum over the state array. -/
def npsum : NpArr → Int
  | .mat m => (m.map fun r => r.sum).sum
  | .vec v => v.sum

/-- Lines 90-92, population: np.sum of the state. -/
def population (g : GameOfLife) : Int := npsum g.state

/-- Lines 105-114, expand on a 2-D state: np.zeros((rows+2, cols+2)) with
the previous state written into the interior.  (On a 1-D state the method
raises IndexError reading state.shape[1]; evolve models that case.) -/
def expandMat (s : Mat) : Mat :=
  (List.range (s.length + 2)).map fun f =>
    (List.range (cols s + 2)).map fun c =>
      if 1 ≤ f ∧ f ≤ s.length ∧ 1 ≤ c ∧ c ≤ cols s then cellN s (f - 1) (c - 1)
      else 0

/-- Lines 158-162: the Moore kernel of count_neighbors. -/
def kernel : Mat := [[1, 1, 1], [1, 0, 1], [1, 1, 1]]

/-- The input padded with the convolution boundary fill value 0 outside its
bounds. -/
def fillCell (s : Mat) (f c : Int) : Int :=
  if 0 ≤ f ∧ f < (s.length : Int) ∧ 0 ≤ c ∧ c < (cols s : Int) then
    cellN s f.toNat c.toNat
  else 0

/-- One entry of scipy convolve2d(s, k) for a 3×3 kernel in mode same with
boundary fill 0: out[i][j] = Σ u, Σ v, k[u][v] · s[i+1−u][j+1−v]. -/
def convEntry (s k : Mat) (i j : Nat) : Int :=
  ((List.range 3).map fun u =>
    ((List.range 3).map fun v =>
      cellN k u v * fillCell s ((i : Int) + 1 - (u : Int)) ((j : Int) + 1 - (v : Int))).sum).sum

/-- Lines 151-169, count_neighbors: convolve2d(state, kernel, mode same,
boundary fill, fillvalue 0). -/
def count_neighbors (s : Mat) : Mat :=
  (List.range s.length).map fun i =>
    (List.range (cols s)).map fun j => convEntry s kernel i j

/-- np.all(state[r, :] == 0) — empty_row of reduce. -/
def emptyRow (s : Mat) (r : Nat) : Bool := (s.getD r []).all fun v => v == 0

/-- np.all(state[:, c] == 0) — empty_col of reduce. -/
def emptyCol (s : Mat) (c : Nat) : Bool :=
  (List.range s.length).all fun f => cellN s f c == 0

/-- Lines 117-148, reduce: scan dead rows and columns inward; when the scans
cross, the state becomes np.array([0]) — a 1-dimensional array — otherwise
the state is sliced to state[top:bottom+1, left:right+1].  bottom and right
are Python ints and reach −1 on an all-dead grid. -/
def reduce (s : Mat) : NpArr :=
  let top : Nat := ((List.range s.length).takeWhile fun r => emptyRow s r).length
  let bottomScan : Nat :=
    (((List.range s.length).map fun t => s.length - 1 - t).takeWhile
      fun r => emptyRow s r).length
  let bottom : Int := (s.length : Int) - 1 - (bottomScan : Int)
  let left : Nat := ((List.range (cols s)).takeWhile fun c => emptyCol s c).length
  let rightScan : Nat :=
    (((List.range (cols s)).map fun t => cols s - 1 - t).takeWhile
      fun c => emptyCol s c).length
  let right : Int := (cols s : Int) - 1 - (rightScan : Int)
  if (top : Int) > bottom ∨ (left : Int) > right then .vec [0]
  else
    .mat (((s.drop top).take (bottom + 1 - (top : Int)).toNat).map fun r =>
      (r.drop left).take (right + 1 - (left : Int)).toNat)

/-- Lines 178-184: new_state, a zero matrix of the expanded shape with the
two rule masks applied, both read from the unmodified expanded snapshot s1
and its convolution neighbour counts. -/
def newStateOf (s1 : Mat) : Mat :=
  let neighbors := count_neighbors s1
  (List.range s1.length).map fun i =>
    (List.range (cols s1)).map fun j =>
      if cellN s1 i j = 1 ∧ (cellN neighbors i j = 2 ∨ cellN neighbors i j = 3) then 1
      else if cellN s1 i j = 0 ∧ cellN neighbors i j = 3 then 1
      else 0

/-- Lines 172-188, evolve: expand, count neighbours against the expanded
snapshot, apply the rule masks, assign, reduce, increment generation.  On a
1-dimensional state (the post-extinction np.array([0])) expand raises
IndexError reading state.shape[1]: modelled as none. -/
def evolve (g : GameOfLife) : Option GameOfLife :=
  match g.state with
  | .vec _ => none
  | .mat s =>
      some { g with
              state := reduce (newStateOf (expandMat s)),
              generation := g.generation + 1 }

/-- evolve iterated n times. -/
def evolveN : Nat → GameOfLife → Option GameOfLife
  | 0, g => some g
  | n + 1, g =>
    match evolve g with
    | none => none
    | some g1 => evolveN n g1

/-- Lines 220-228, __str__: one glyph per cell, rows joined by newlines.
On a 1-dimensional state (the post-extinction np.array([0])) each row is
the numpy scalar np.int64, and the inner generator raises TypeError when it
iterates the scalar: modelled as none. -/
def toText (g : GameOfLife) : Option String :=
  match g.state with
  | .vec _ => none
  | .mat s =>
      some (String.intercalate (String.mk [Char.ofNat 10]) (s.map fun row =>
        String.join (row.map fun cell =>
          if cell = 1 then toString g.live_cell_char else toString g.dead_cell_char)))

/-- The literal prefix of the WARN return expression (line 216), newline
included. -/
def warnPrefix : String :=
  String.join ["WARN: Stopping simulation at:", String.mk [Char.ofNat 10]]

/-- Lines 190-218, run_simulation: evolve up to max_generations times.  As
soon as the population is 0, the WARN string prefixed to str(self) is
returned — but str(self) raises TypeError on the 1-dimensional
post-extinction state (toText none), so that branch can crash (none).
When the generations are exhausted, str(self) of the final state is
returned.  The Bool records which branch returned. -/
def run_simulation : GameOfLife → Nat → Option (Bool × GameOfLife × String)
  | g, 0 =>
    match toText g with
    | none => none
    | some t => some (false, g, t)
  | g, n + 1 =>
    match evolve g with
    | none => none
    | some g1 =>
        if population g1 = 0 then
          match toText g1 with
          | none => none
          | some t => some (true, g1, String.join [warnPrefix, t])
        else run_simulation g1 n

end GameOfLife

/-! ### Specification-side definitions (spec.md sections 4.3-4.6) -/

/-- Indicator that the Moore position (f, c) holds an ALIVE cell, every
position outside the grid bounds counting as DEAD (spec 4.3). -/
def liveInd (m : Mat) (f c : Int) : Nat :=
  if 0 ≤ f ∧ f < (m.length : Int) ∧ 0 ≤ c ∧ c < (cols m : Int)
      ∧ cellN m f.toNat c.toNat = 1 then 1
  else 0

/-- Spec 4.3: the number of ALIVE cells among the 8 Moore-neighbourhood
positions around (f, c), excluding the centre, out-of-bounds DEAD. -/
def mooreCount (m : Mat) (f c : Int) : Nat :=
  liveInd m (f - 1) (c - 1) + liveInd m (f - 1) c + liveInd m (f - 1) (c + 1) +
  liveInd m f (c - 1) + liveInd m f (c + 1) +
  liveInd m (f + 1) (c - 1) + liveInd m (f + 1) c + liveInd m (f + 1) (c + 1)

/-- Spec 4.5 step 3, the Conway rule on one snapshot cell. -/
def conwayRule (v : Int) (n : Nat) : Int :=
  if v = 1 ∧ (n < 2 ∨ n > 3) then 0
  else if v = 1 ∧ (n = 2 ∨ n = 3) then 1
  else if v = 0 ∧ n = 3 then 1
  else 0

/-- Spec 4.5 steps 2-3: the rule applied to every cell simultaneously, each
neighbour count read from the same unmodified snapshot. -/
def conwayMap (m : Mat) : Mat :=
  (List.range m.length).map fun i =>
    (List.range (cols m)).map fun j =>
      conwayRule (cellN m i j) (mooreCount m (i : Int) (j : Int))

/-- Spec 4.4 and glossary: one additional DEAD row above and below and one
additional DEAD column left and right, previous content in the interior. -/
def specExpand (m : Mat) : Mat :=
  [List.replicate (cols m + 2) 0] ++ (m.map fun r => 0 :: (r ++ [0])) ++
    [List.replicate (cols m + 2) 0]

/-- The coordinates of the ALIVE cells of a state. -/
def liveFinset : NpArr → Finset (Nat × Nat)
  | .mat m =>
      (Finset.range m.length ×ˢ Finset.range (cols m)).filter fun p =>
        cellN m p.1 p.2 = 1
  | .vec v =>
      (Finset.range v.length ×ˢ Finset.range 1).filter fun p => v.getD p.1 0 = 1

/-- Least first coordinate of a live-cell set (0 when empty). -/
def minFst (S : Finset (Nat × Nat)) : Nat := ((S.image Prod.fst).min).untop' 0

/-- Least second coordinate of a live-cell set (0 when empty). -/
def minSnd (S : Finset (Nat × Nat)) : Nat := ((S.image Prod.snd).min).untop' 0

/-- The live pattern normalised by its bounding-box offset: two states have
the same relative pattern of live cells iff their normalised patterns are
equal. -/
def normPattern (a : NpArr) : Finset (Nat × Nat) :=
  (liveFinset a).image fun p =>
    (p.1 - minFst (liveFinset a), p.2 - minSnd (liveFinset a))

/-- Claim C8 side condition: no ALIVE cell on the outer border of m. -/
def borderDead (m : Mat) : Prop :=
  ∀ p ∈ liveFinset (.mat m), 0 < p.1 ∧ p.1 + 1 < m.length ∧ 0 < p.2 ∧ p.2 + 1 < cols m

/-! ### List infrastructure -/

section ListInfra

variable {α : Type} {β : Type}

lemma headD_eq_getD (l : List α) (d : α) : l.headD d = l.getD 0 d := by
  cases l <;> rfl

lemma twLen_le (p : α → Bool) : ∀ l : List α, (l.takeWhile p).length ≤ l.length
  | [] => by simp
  | a :: l => by
    by_cases h : p a = true
    · rw [List.takeWhile_cons_of_pos h]
      exact Nat.succ_le_succ (twLen_le p l)
    · rw [List.takeWhile_cons_of_neg h]
      exact Nat.zero_le _

lemma twLen_sat (p : α → Bool) (d : α) :
    ∀ (l : List α) (i : Nat), i < (l.takeWhile p).length → p (l.getD i d) = true
  | [], i, h => by simp at h
  | a :: l, i, h => by
    by_cases hp : p a = true
    · cases i with
      | zero => simpa using hp
      | succ i =>
        rw [List.takeWhile_cons_of_pos hp] at h
        simpa using twLen_sat p d l i (by simpa using h)
    · rw [List.takeWhile_cons_of_neg hp] at h
      simp at h

lemma twLen_stop (p : α → Bool) (d : α) :
    ∀ l : List α, (l.takeWhile p).length < l.length →
      p (l.getD (l.takeWhile p).length d) = false
  | [], h => by simp at h
  | a :: l, h => by
    by_cases hp : p a = true
    · rw [List.takeWhile_cons_of_pos hp] at h ⊢
      simpa using twLen_stop p d l (by simpa using h)
    · rw [List.takeWhile_cons_of_neg hp]
      simpa using hp

lemma rmap_getD (g : Nat → β) (n i : Nat) (d : β) :
    ((List.range n).map g).getD i d = if i < n then g i else d := by
  by_cases h : i < n
  · rw [if_pos h]
    simp [List.getD_eq_getElem?_getD, List.getElem?_range h]
  · rw [if_neg h]
    rw [List.getD_eq_getElem?_getD, List.getElem?_eq_none (by simpa using Nat.le_of_not_lt h)]
    rfl

lemma range_getD (n i d : Nat) : (List.range n).getD i d = if i < n then i else d := by
  have h := rmap_getD (fun x => x) n i d
  simpa using h

lemma sum_eq_range_sum (l : List Int) :
    l.sum = ∑ j in Finset.range l.length, l.getD j 0 := by
  induction l with
  | nil => simp
  | cons a l ih =>
    rw [List.sum_cons, List.length_cons, Finset.sum_range_succ']
    simp only [List.getD_cons_succ, List.getD_cons_zero]
    rw [ih]; ring

lemma countP_eq_range_sum (p : α → Bool) (d : α) (l : List α) :
    l.countP p = ∑ j in Finset.range l.length, if p (l.getD j d) = true then 1 else 0 := by
  induction l with
  | nil => simp
  | cons a l ih =>
    rw [List.countP_cons, List.length_cons, Finset.sum_range_succ']
    simp only [List.getD_cons_succ, List.getD_cons_zero]
    rw [ih]

lemma slice_getD (l : List α) (a k t : Nat) (d : α) (ht : t < k) :
    ((l.drop a).take k).getD t d = l.getD (a + t) d := by
  rw [List.getD_eq_getElem?_getD, List.getD_eq_getElem?_getD,
    List.getElem?_take_of_lt ht, List.getElem?_drop]

lemma slice_length (l : List α) (a k : Nat) (h : a + k ≤ l.length) :
    ((l.drop a).take k).length = k := by
  rw [List.length_take, List.length_drop]
  omega

lemma all_eq_range_all (p : α → Bool) (d : α) (l : List α) :
    l.all p = (List.range l.length).all fun j => p (l.getD j d) := by
  induction l with
  | nil => simp
  | cons a l ih =>
    rw [List.all_cons, List.length_cons, List.range_succ_eq_map]
    simp only [List.all_cons, List.all_map, List.getD_cons_zero, Function.comp]
    rw [ih]
    have hfun : ((fun j => p ((a :: l)[j]?.getD d)) ∘ Nat.succ) =
        fun j => p (l[j]?.getD d) := by
      funext j
      simp
    simp only [List.getD_eq_getElem?_getD] at hfun ⊢
    rw [hfun]

end ListInfra

/-! ### Matrix access lemmas -/

lemma cols_rmap (R C : Nat) (f : Nat → Nat → Int) (hR : 0 < R) :
    cols ((List.range R).map fun i => (List.range C).map fun j => f i j) = C := by
  unfold cols
  rw [headD_eq_getD, rmap_getD, if_pos hR]
  simp

lemma length_rmap (R C : Nat) (f : Nat → Nat → Int) :
    ((List.range R).map fun i => (List.range C).map fun j => f i j).length = R := by
  simp

lemma cellN_rmap (R C : Nat) (f : Nat → Nat → Int) (i j : Nat)
    (hi : i < R) (hj : j < C) :
    cellN ((List.range R).map fun i2 => (List.range C).map fun j2 => f i2 j2) i j = f i j := by
  unfold cellN
  rw [rmap_getD, if_pos hi, rmap_getD, if_pos hj]

lemma rect_rmap (R C : Nat) (f : Nat → Nat → Int) :
    rectangular ((List.range R).map fun i => (List.range C).map fun j => f i j) := by
  intro r hr
  rcases List.mem_map.1 hr with ⟨i, hi, rfl⟩
  have hR : 0 < R := by
    have := List.mem_range.1 hi
    omega
  rw [cols_rmap R C f hR]
  simp

instance {ε α : Type} [DecidableEq ε] [DecidableEq α] : DecidableEq (Except ε α) := fun a b =>
  match a, b with
  | .error e1, .error e2 =>
      if h : e1 = e2 then isTrue (by rw [h])
      else isFalse (by intro hh; cases hh; exact h rfl)
  | .error e1, .ok v2 => isFalse (by intro hh; cases hh)
  | .ok v1, .error e2 => isFalse (by intro hh; cases hh)
  | .ok v1, .ok v2 =>
      if h : v1 = v2 then isTrue (by rw [h])
      else isFalse (by intro hh; cases hh; exact h rfl)

/-! ### Claim C10 — frame conditions of evolve -/

/-- C10: each step() increments the generation counter by exactly 1 and,
besides the cell matrix and that counter, modifies nothing of the grid:
max_generations and the live/dead display glyphs are unchanged by evolve.
(population and the string rendering are embedded as pure functions —
the source methods assign no field — so they modify nothing by
construction.) -/
theorem C10_step_frame (g g1 : GameOfLife) (h : GameOfLife.evolve g = some g1) :
    g1.generation = g.generation + 1 ∧
    g1.max_generations = g.max_generations ∧
    g1.dead_cell_char = g.dead_cell_char ∧
    g1.live_cell_char = g.live_cell_char := by
  rcases g with ⟨st, gen, mx, dc, lc⟩
  cases st with
  | vec v => exact absurd h (by simp [GameOfLife.evolve])
  | mat s =>
    simp only [GameOfLife.evolve, Option.some.injEq] at h
    subst h
    exact ⟨rfl, rfl, rfl, rfl⟩

/-- Witness for C10 at the still-life block [[1,1],[1,1]]. -/
theorem C10_step_frame_witness :
    GameOfLife.evolve { state := NpArr.mat [[1, 1], [1, 1]] } =
      some { state := NpArr.mat [[1, 1], [1, 1]], generation := 1 } ∧
    (({ state := NpArr.mat [[1, 1], [1, 1]], generation := 1 } : GameOfLife).generation =
      ({ state := NpArr.mat [[1, 1], [1, 1]] } : GameOfLife).generation + 1 ∧
     ({ state := NpArr.mat [[1, 1], [1, 1]], generation := 1 } : GameOfLife).max_generations =
      ({ state := NpArr.mat [[1, 1], [1, 1]] } : GameOfLife).max_generations ∧
     ({ state := NpArr.mat [[1, 1], [1, 1]], generation := 1 } : GameOfLife).dead_cell_char =
      ({ state := NpArr.mat [[1, 1], [1, 1]] } : GameOfLife).dead_cell_char ∧
     ({ state := NpArr.mat [[1, 1], [1, 1]], generation := 1 } : GameOfLife).live_cell_char =
      ({ state := NpArr.mat [[1, 1], [1, 1]] } : GameOfLife).live_cell_char) :=
  ⟨by decide, C10_step_frame _ _ (by decide)⟩

/-! ### Claim C6 — construction validation -/

/-- C6: construction fails, constructing nothing, exactly on malformed
input, with the error naming the violated invariant: a jagged pattern fails
as NotRectangular, a value outside {0,1} fails as InvalidCellValue, a
non-positive limit fails as InvalidGenerationLimit, and every non-empty
rectangular {0,1} pattern with a positive limit constructs successfully. -/
theorem C6_construction (p : List (List Int)) (mg : Int) :
    (∀ mg2 : Int, GameOfLife.make [[1, 0], [1]] mg2 = .error .NotRectangular) ∧
    (∀ mg2 : Int, GameOfLife.make [[1, 2]] mg2 = .error .InvalidCellValue) ∧
    (p ≠ [] → rectangular p → cells01 p → mg ≤ 0 →
      GameOfLife.make p mg = .error .InvalidGenerationLimit) ∧
    (p ≠ [] → rectangular p → cells01 p → 0 < mg →
      GameOfLife.make p mg =
        .ok { state := .mat p, generation := 0, max_generations := mg,
              dead_cell_char := ' ', live_cell_char := '࿕' }) ∧
    (∀ G, GameOfLife.make p mg = .ok G →
      p ≠ [] ∧ rectangular p ∧ cells01 p ∧ 0 < mg ∧
        G = { state := .mat p, generation := 0, max_generations := mg,
              dead_cell_char := ' ', live_cell_char := '࿕' }) := by
  have hrect : (p.all fun r => r.length == cols p) = true ↔ rectangular p := by
    simp [List.all_eq_true]
  have hval : (p.all fun r => r.all fun v => v == 0 || v == 1) = true ↔ cells01 p := by
    simp [List.all_eq_true]
  refine ⟨fun mg2 => by rw [GameOfLife.make, if_pos]; decide,
          fun mg2 => by
            rw [GameOfLife.make, if_neg (by decide), if_pos (by decide)],
          ?_, ?_, ?_⟩
  · intro hne hr hv hmg
    rw [GameOfLife.make, if_neg, if_neg, if_pos hmg]
    · exact fun h => h (hval.2 hv)
    · rintro (h | h)
      · exact hne (by simpa [List.isEmpty_iff] using h)
      · exact h (hrect.2 hr)
  · intro hne hr hv hmg
    rw [GameOfLife.make, if_neg, if_neg, if_neg (by omega)]
    · exact fun h => h (hval.2 hv)
    · rintro (h | h)
      · exact hne (by simpa [List.isEmpty_iff] using h)
      · exact h (hrect.2 hr)
  · intro G hG
    rw [GameOfLife.make] at hG
    by_cases h1 : p.isEmpty ∨ ¬ (p.all fun r => r.length == cols p)
    · rw [if_pos h1] at hG; cases hG
    · rw [if_neg h1] at hG
      by_cases h2 : ¬ (p.all fun r => r.all fun v => v == 0 || v == 1)
      · rw [if_pos h2] at hG; cases hG
      · rw [if_neg h2] at hG
        by_cases h3 : mg ≤ 0
        · rw [if_pos h3] at hG; cases hG
        · rw [if_neg h3] at hG
          push_neg at h1 h2
          refine ⟨by simpa [List.isEmpty_iff] using h1.1,
                  hrect.1 h1.2, hval.1 (by simpa using h2), by omega, ?_⟩
          simpa using hG.symm

/-- Witness for C6 at the spec examples. -/
theorem C6_construction_witness :
    GameOfLife.make [[1, 0], [1]] 151 = .error .NotRectangular ∧
    GameOfLife.make [[1, 2]] 151 = .error .InvalidCellValue ∧
    GameOfLife.make [[1, 0]] 0 = .error .InvalidGenerationLimit ∧
    GameOfLife.make [[1, 0]] 151 =
      .ok { state := .mat [[1, 0]], generation := 0, max_generations := 151,
            dead_cell_char := ' ', live_cell_char := '࿕' } :=
  ⟨(C6_construction [] 0).1 151, (C6_construction [] 0).2.1 151,
   (C6_construction [[1, 0]] 0).2.2.1 (by decide) (by decide) (by decide) (by decide),
   (C6_construction [[1, 0]] 151).2.2.2.1 (by decide) (by decide) (by decide) (by decide)⟩

/-! ### Claims C2, C3, C4 — the post-extinction 1-D state of the numpy
revision -/

/-- C2 (code evidence): the validly constructed grid [[1]] reaches
extinction in one evolve, and the numpy revision leaves the state as the
1-dimensional array [0] — not a 2-D matrix of any shape — violating the
rectangularity invariant its own __post_init__ enforces; life.py produces
the rectangular 1×1 grid [[0]] for the same step. -/
theorem C2_extinction_shape :
    GameOfLife.from_list [[1]] = .ok { state := NpArr.mat [[1]] } ∧
    GameOfLife.evolve { state := NpArr.mat [[1]] } =
      some { state := NpArr.vec [0], generation := 1 } ∧
    (∀ m : Mat, NpArr.vec [0] ≠ NpArr.mat m) ∧
    LifePy.step [[1]] = [[0]] := by
  refine ⟨by decide, by decide, ?_, by decide⟩
  intro m h
  cases h

/-- C3 (code evidence): after the extinction step from [[1]] the numpy
revision reports population 0 at generation 1, but its collapsed state is
the 1-dimensional np.array([0]), not the canonical 1×1 DEAD grid [[0]];
life.py does collapse to [[0]]. -/
theorem C3_extinction_canonical :
    GameOfLife.evolve { state := NpArr.mat [[1]] } =
      some { state := NpArr.vec [0], generation := 1 } ∧
    GameOfLife.population { state := NpArr.vec [0], generation := 1 } = 0 ∧
    NpArr.vec [0] ≠ NpArr.mat [[0]] ∧
    LifePy.step [[1]] = [[0]] ∧
    LifePy.reducir [[0]] = [[0]] := by
  decide

/-- C4 (code evidence): evolve on the state the numpy revision itself
produces at extinction (np.array([0]), 1-dimensional) raises IndexError in
expand — it does not succeed; life.py's step does succeed on its canonical
post-extinction grid [[0]]. -/
theorem C4_step_on_extinct :
    GameOfLife.evolve { state := NpArr.mat [[1]] } =
      some { state := NpArr.vec [0], generation := 1 } ∧
    GameOfLife.evolve { state := NpArr.vec [0], generation := 1 } = none ∧
    LifePy.step [[0]] = [[0]] := by
  decide

/-! ### Neighbour counting: the nested loops and the convolution both
compute the Moore count -/

lemma ite_drop {A R : Prop} [Decidable A] [Decidable R] (h : ¬ A) :
    (if ¬A ∧ R then (1 : Nat) else 0) = if R then 1 else 0 := by
  refine if_congr ?_ rfl rfl
  exact ⟨And.right, fun hr => ⟨h, hr⟩⟩

lemma contar_eq_moore (m : Mat) (f c : Int) :
    LifePy.contar_vecinos m f c = mooreCount m f c := by
  unfold LifePy.contar_vecinos mooreCount
  simp only [List.flatMap_cons, List.flatMap_nil, List.map_cons, List.map_nil,
    List.countP_cons, List.countP_nil, List.append_nil, List.cons_append,
    List.nil_append, decide_eq_true_eq]
  rw [ite_drop (show ¬(f - 1 = f ∧ c - 1 = c) by rintro ⟨h1, h2⟩; omega),
    ite_drop (show ¬(f - 1 = f ∧ True) by rintro ⟨h1, h2⟩; omega),
    ite_drop (show ¬(f - 1 = f ∧ c + 1 = c) by rintro ⟨h1, h2⟩; omega),
    ite_drop (show ¬(True ∧ c - 1 = c) by rintro ⟨h1, h2⟩; omega),
    ite_drop (show ¬(True ∧ c + 1 = c) by rintro ⟨h1, h2⟩; omega),
    ite_drop (show ¬(f + 1 = f ∧ c - 1 = c) by rintro ⟨h1, h2⟩; omega),
    ite_drop (show ¬(f + 1 = f ∧ True) by rintro ⟨h1, h2⟩; omega),
    ite_drop (show ¬(f + 1 = f ∧ c + 1 = c) by rintro ⟨h1, h2⟩; omega),
    if_neg (show ¬(¬(True ∧ True) ∧ 0 ≤ f ∧ f < (m.length : Int) ∧ 0 ≤ c
      ∧ c < (cols m : Int) ∧ cellN m f.toNat c.toNat = 1) from
        fun hh => hh.1 ⟨trivial, trivial⟩)]
  unfold liveInd
  ring

lemma mooreCount_le_eight (m : Mat) (f c : Int) : mooreCount m f c ≤ 8 := by
  unfold mooreCount liveInd
  split_ifs <;> omega

lemma getD_mem_of_lt {α : Type} (l : List α) (i : Nat) (d : α) (h : i < l.length) :
    l.getD i d ∈ l := by
  rw [List.getD_eq_getElem?_getD, List.getElem?_eq_getElem h]
  exact List.getElem_mem h

lemma cell01_of_valid (m : Mat) (h01 : cells01 m) (hr : rectangular m)
    (i j : Nat) (hi : i < m.length) (hj : j < cols m) :
    cellN m i j = 0 ∨ cellN m i j = 1 := by
  have hrow : m.getD i [] ∈ m := getD_mem_of_lt m i [] hi
  have hlen : (m.getD i []).length = cols m := hr _ hrow
  have hv : (m.getD i []).getD j 0 ∈ m.getD i [] :=
    getD_mem_of_lt _ j 0 (by omega)
  exact h01 _ hrow _ hv

lemma fillCell_eq_liveInd (m : Mat) (h01 : cells01 m) (hr : rectangular m) (x y : Int) :
    GameOfLife.fillCell m x y = (liveInd m x y : Int) := by
  unfold GameOfLife.fillCell liveInd
  by_cases hb : 0 ≤ x ∧ x < (m.length : Int) ∧ 0 ≤ y ∧ y < (cols m : Int)
  · rw [if_pos hb]
    rcases cell01_of_valid m h01 hr x.toNat y.toNat (by omega) (by omega) with h0 | h1
    · rw [h0, if_neg]
      · simp
      · rintro ⟨_, _, _, _, hcell⟩
        exact absurd hcell (by norm_num)
    · rw [h1, if_pos ⟨hb.1, hb.2.1, hb.2.2.1, hb.2.2.2, rfl⟩]
      simp
  · rw [if_neg hb, if_neg]
    · simp
    · rintro ⟨hx1, hx2, hy1, hy2, _⟩
      exact hb ⟨hx1, hx2, hy1, hy2⟩

lemma convEntry_eq_moore (m : Mat) (h01 : cells01 m) (hr : rectangular m) (i j : Nat) :
    GameOfLife.convEntry m GameOfLife.kernel i j = (mooreCount m (i : Int) (j : Int) : Int) := by
  unfold GameOfLife.convEntry
  simp only [List.range_succ, List.range_zero, List.nil_append, List.cons_append,
    List.map_cons, List.map_nil, List.sum_cons, List.sum_nil,
    Nat.cast_ofNat, Nat.cast_zero, Nat.cast_one]
  simp only [fillCell_eq_liveInd m h01 hr]
  unfold mooreCount
  push_cast
  norm_num [GameOfLife.kernel, cellN]
  ring_nf

/-! ### The two step computations both realise the spec rule map -/

lemma rmap_congr (R C : Nat) (f g : Nat → Nat → Int)
    (h : ∀ i < R, ∀ j < C, f i j = g i j) :
    ((List.range R).map fun i => (List.range C).map fun j => f i j)
      = (List.range R).map fun i => (List.range C).map fun j => g i j := by
  apply List.map_congr_left
  intro i hi
  apply List.map_congr_left
  intro j hj
  exact h i (List.mem_range.1 hi) j (List.mem_range.1 hj)

lemma expandir_length (m : Mat) : (LifePy.expandir m).length = m.length + 2 := by
  unfold LifePy.expandir
  simp

lemma expandir_cols (m : Mat) : cols (LifePy.expandir m) = cols m + 2 := by
  unfold LifePy.expandir
  exact cols_rmap _ _ _ (by omega)

lemma expandir_cell (m : Mat) (i j : Nat) (hi : i < m.length + 2) (hj : j < cols m + 2) :
    cellN (LifePy.expandir m) i j =
      if 1 ≤ i ∧ i ≤ m.length ∧ 1 ≤ j ∧ j ≤ cols m then cellN m (i - 1) (j - 1) else 0 := by
  unfold LifePy.expandir
  exact cellN_rmap _ _ _ i j hi hj

lemma expandir_rect (m : Mat) : rectangular (LifePy.expandir m) := by
  unfold LifePy.expandir
  exact rect_rmap _ _ _

lemma cells01_rmap (R C : Nat) (f : Nat → Nat → Int)
    (h : ∀ i < R, ∀ j < C, f i j = 0 ∨ f i j = 1) :
    cells01 ((List.range R).map fun i => (List.range C).map fun j => f i j) := by
  intro r hr v hv
  rcases List.mem_map.1 hr with ⟨i, hi, rfl⟩
  rcases List.mem_map.1 hv with ⟨j, hj, rfl⟩
  exact h i (List.mem_range.1 hi) j (List.mem_range.1 hj)

lemma expandir_cells01 (m : Mat) (h01 : cells01 m) (hr : rectangular m) :
    cells01 (LifePy.expandir m) := by
  unfold LifePy.expandir
  apply cells01_rmap
  intro i hi j hj
  by_cases hin : 1 ≤ i ∧ i ≤ m.length ∧ 1 ≤ j ∧ j ≤ cols m
  · rw [if_pos hin]
    exact cell01_of_valid m h01 hr _ _ (by omega) (by omega)
  · rw [if_neg hin]
    exact Or.inl rfl

lemma expandir_valid (m : Mat) (h : valid01 m) : valid01 (LifePy.expandir m) :=
  ⟨expandir_rect m, expandir_cells01 m h.2 h.1⟩

lemma count_neighbors_cell (s : Mat) (i j : Nat) (hi : i < s.length) (hj : j < cols s) :
    cellN (GameOfLife.count_neighbors s) i j = GameOfLife.convEntry s GameOfLife.kernel i j := by
  unfold GameOfLife.count_neighbors
  exact cellN_rmap _ _ _ i j hi hj

lemma evolucionar_eq_conwayMap (m : Mat) (h : valid01 m) :
    LifePy.evolucionar m = conwayMap (LifePy.expandir m) := by
  have he := expandir_valid m h
  unfold LifePy.evolucionar conwayMap
  apply rmap_congr
  intro i hi j hj
  rw [contar_eq_moore]
  have hv := cell01_of_valid _ he.2 he.1 i j hi hj
  unfold conwayRule
  dsimp only
  split_ifs <;> omega

lemma newStateOf_eq_conwayMap (s : Mat) (h : valid01 s) :
    GameOfLife.newStateOf s = conwayMap s := by
  unfold GameOfLife.newStateOf conwayMap
  apply rmap_congr
  intro i hi j hj
  rw [count_neighbors_cell s i j hi hj, convEntry_eq_moore s h.2 h.1 i j]
  have hv := cell01_of_valid s h.2 h.1 i j hi hj
  unfold conwayRule
  split_ifs <;> omega

lemma getElem?_eq_some_getD {α : Type} (l : List α) (i : Nat) (d : α) (h : i < l.length) :
    l[i]? = some (l.getD i d) := by
  rw [List.getD_eq_getElem?_getD, List.getElem?_eq_getElem h]
  rfl

lemma specExpand_length (m : Mat) : (specExpand m).length = m.length + 2 := by
  unfold specExpand
  simp

lemma expandir_row (m : Mat) (i : Nat) (h : i < m.length + 2) :
    (LifePy.expandir m)[i]? = some ((List.range (cols m + 2)).map fun c =>
      if 1 ≤ i ∧ i ≤ m.length ∧ 1 ≤ c ∧ c ≤ cols m then cellN m (i - 1) (c - 1) else 0) := by
  unfold LifePy.expandir
  rw [List.getElem?_map, List.getElem?_range h]
  rfl

lemma const_row_eq (C : Nat) (f : Nat → Int) (h : ∀ c < C, f c = 0) :
    List.replicate C (0 : Int) = (List.range C).map f := by
  apply List.ext_getElem?
  intro j
  by_cases hj : j < C
  · rw [List.getElem?_map, List.getElem?_range hj, List.getElem?_replicate]
    simp [hj, h j hj]
  · rw [List.getElem?_eq_none (by simpa using Nat.le_of_not_lt hj),
      List.getElem?_eq_none (by simpa using Nat.le_of_not_lt hj)]

lemma pad_eq_row (m : Mat) (hr : rectangular m) (k : Nat) (hk : k < m.length) :
    (0 : Int) :: (m.getD k [] ++ [0]) =
      (List.range (cols m + 2)).map fun c =>
        if 1 ≤ k + 1 ∧ k + 1 ≤ m.length ∧ 1 ≤ c ∧ c ≤ cols m then
          cellN m (k + 1 - 1) (c - 1)
        else 0 := by
  have hlen : (m.getD k []).length = cols m := hr _ (getD_mem_of_lt m k [] hk)
  apply List.ext_getElem?
  intro j
  by_cases hj : j < cols m + 2
  · rw [List.getElem?_map, List.getElem?_range hj]
    simp only [Option.map_some']
    cases j with
    | zero =>
      rw [List.getElem?_cons_zero, if_neg (by omega)]
    | succ jj =>
      rw [List.getElem?_cons_succ]
      by_cases hjj : jj < cols m
      · rw [List.getElem?_append_left (by omega),
          getElem?_eq_some_getD _ jj 0 (by omega),
          if_pos (by omega)]
        simp [cellN]
      · have hjc : jj = cols m := by omega
        subst hjc
        rw [List.getElem?_append_right (by omega), hlen, if_neg (by omega)]
        simp
  · rw [List.getElem?_eq_none (by
        simp only [List.length_cons, List.length_append, List.length_nil, hlen]
        omega),
      List.getElem?_eq_none (by simp; omega)]

lemma specExpand_eq_expandir (m : Mat) (hr : rectangular m) :
    specExpand m = LifePy.expandir m := by
  apply List.ext_getElem?
  intro i
  by_cases hi : i < m.length + 2
  · rw [expandir_row m i hi]
    unfold specExpand
    cases i with
    | zero =>
      simp only [List.cons_append, List.getElem?_cons_zero, List.nil_append]
      rw [const_row_eq (cols m + 2)
        (fun c => if 1 ≤ 0 ∧ 0 ≤ m.length ∧ 1 ≤ c ∧ c ≤ cols m then
          cellN m (0 - 1) (c - 1) else 0)
        (fun c hc => if_neg (by omega))]
    | succ k =>
      simp only [List.cons_append, List.getElem?_cons_succ, List.nil_append]
      by_cases hk : k < m.length
      · rw [List.getElem?_append_left (by simpa using hk),
          List.getElem?_map, getElem?_eq_some_getD m k [] hk]
        simp only [Option.map_some', Option.some.injEq]
        exact pad_eq_row m hr k hk
      · have hkl : k = m.length := by omega
        subst hkl
        rw [List.getElem?_append_right (by simp)]
        simp only [List.length_map]
        rw [show m.length - m.length = 0 from by omega]
        simp only [List.getElem?_cons_zero, Option.some.injEq]
        rw [const_row_eq (cols m + 2)
          (fun c => if 1 ≤ m.length + 1 ∧ m.length + 1 ≤ m.length ∧ 1 ≤ c ∧ c ≤ cols m then
            cellN m (m.length + 1 - 1) (c - 1) else 0)
          (fun c hc => if_neg (by omega))]
  · rw [List.getElem?_eq_none (by rw [specExpand_length]; omega),
      List.getElem?_eq_none (by rw [expandir_length]; omega)]

/-! ### Analysis of reducir: the four scan counts delimit the live bounding
box -/

/-- A state with at least one ALIVE cell. -/
def hasLive (m : Mat) : Prop := (liveFinset (.mat m)).Nonempty

instance (m : Mat) : Decidable (hasLive m) := by
  unfold hasLive
  infer_instance

lemma live_mem (m : Mat) (p : Nat × Nat) :
    p ∈ liveFinset (.mat m) ↔ p.1 < m.length ∧ p.2 < cols m ∧ cellN m p.1 p.2 = 1 := by
  unfold liveFinset
  simp [Finset.mem_filter, Finset.mem_product, and_assoc]

lemma rowZero_iff (m : Mat) (f : Nat) :
    LifePy.rowZero m f = true ↔ ∀ c < cols m, cellN m f c = 0 := by
  unfold LifePy.rowZero
  simp [List.all_eq_true]

lemma colZero_iff (m : Mat) (c : Nat) :
    LifePy.colZero m c = true ↔ ∀ f < m.length, cellN m f c = 0 := by
  unfold LifePy.colZero
  simp [List.all_eq_true]

lemma filasSup_le (m : Mat) : LifePy.filasSup m ≤ m.length :=
  le_trans (twLen_le _ _) (by simp)

lemma filasSup_sat (m : Mat) (i : Nat) (h : i < LifePy.filasSup m) :
    LifePy.rowZero m i = true := by
  have := twLen_sat (fun f => LifePy.rowZero m f) 0 (List.range m.length) i h
  rwa [range_getD, if_pos (by have := filasSup_le m; omega)] at this

lemma filasSup_stop (m : Mat) (h : LifePy.filasSup m < m.length) :
    LifePy.rowZero m (LifePy.filasSup m) = false := by
  have := twLen_stop (fun f => LifePy.rowZero m f) 0 (List.range m.length)
    (by simpa using h)
  rwa [range_getD, if_pos (by simpa using h)] at this

lemma filasInf_le (m : Mat) : LifePy.filasInf m ≤ m.length :=
  le_trans (twLen_le _ _) (by simp)

lemma filasInf_sat (m : Mat) (t : Nat) (h : t < LifePy.filasInf m) :
    LifePy.rowZero m (m.length - 1 - t) = true := by
  have := twLen_sat (fun f => LifePy.rowZero m f) 0
    ((List.range m.length).map fun t => m.length - 1 - t) t h
  rwa [rmap_getD, if_pos (by have := filasInf_le m; omega)] at this

lemma filasInf_stop (m : Mat) (h : LifePy.filasInf m < m.length) :
    LifePy.rowZero m (m.length - 1 - LifePy.filasInf m) = false := by
  have := twLen_stop (fun f => LifePy.rowZero m f) 0
    ((List.range m.length).map fun t => m.length - 1 - t) (by simpa using h)
  rwa [rmap_getD, if_pos (by simpa using h)] at this

lemma colsIzq_le (m : Mat) : LifePy.colsIzq m ≤ cols m :=
  le_trans (twLen_le _ _) (by simp)

lemma colsIzq_sat (m : Mat) (j : Nat) (h : j < LifePy.colsIzq m) :
    LifePy.colZero m j = true := by
  have := twLen_sat (fun c => LifePy.colZero m c) 0 (List.range (cols m)) j h
  rwa [range_getD, if_pos (by have := colsIzq_le m; omega)] at this

lemma colsIzq_stop (m : Mat) (h : LifePy.colsIzq m < cols m) :
    LifePy.colZero m (LifePy.colsIzq m) = false := by
  have := twLen_stop (fun c => LifePy.colZero m c) 0 (List.range (cols m))
    (by simpa using h)
  rwa [range_getD, if_pos (by simpa using h)] at this

lemma colsDer_le (m : Mat) : LifePy.colsDer m ≤ cols m :=
  le_trans (twLen_le _ _) (by simp)

lemma colsDer_sat (m : Mat) (t : Nat) (h : t < LifePy.colsDer m) :
    LifePy.colZero m (cols m - 1 - t) = true := by
  have := twLen_sat (fun c => LifePy.colZero m c) 0
    ((List.range (cols m)).map fun t => cols m - 1 - t) t h
  rwa [rmap_getD, if_pos (by have := colsDer_le m; omega)] at this

lemma colsDer_stop (m : Mat) (h : LifePy.colsDer m < cols m) :
    LifePy.colZero m (cols m - 1 - LifePy.colsDer m) = false := by
  have := twLen_stop (fun c => LifePy.colZero m c) 0
    ((List.range (cols m)).map fun t => cols m - 1 - t) (by simpa using h)
  rwa [rmap_getD, if_pos (by simpa using h)] at this

section ReducirAnalysis

variable (m : Mat)

lemma live_row_ge (p : Nat × Nat) (hp : p ∈ liveFinset (.mat m)) :
    LifePy.filasSup m ≤ p.1 := by
  rcases (live_mem m p).1 hp with ⟨hi, hj, hc⟩
  by_contra hlt
  have hz := (rowZero_iff m p.1).1 (filasSup_sat m p.1 (by omega)) p.2 hj
  rw [hc] at hz
  exact absurd hz (by norm_num)

lemma live_row_lt (p : Nat × Nat) (hp : p ∈ liveFinset (.mat m)) :
    p.1 < m.length - LifePy.filasInf m := by
  rcases (live_mem m p).1 hp with ⟨hi, hj, hc⟩
  by_contra hge
  have ht : m.length - 1 - p.1 < LifePy.filasInf m := by omega
  have hz := (rowZero_iff m _).1 (filasInf_sat m _ ht) p.2 hj
  rw [show m.length - 1 - (m.length - 1 - p.1) = p.1 from by omega, hc] at hz
  exact absurd hz (by norm_num)

lemma live_col_ge (p : Nat × Nat) (hp : p ∈ liveFinset (.mat m)) :
    LifePy.colsIzq m ≤ p.2 := by
  rcases (live_mem m p).1 hp with ⟨hi, hj, hc⟩
  by_contra hlt
  have hz := (colZero_iff m p.2).1 (colsIzq_sat m p.2 (by omega)) p.1 hi
  rw [hc] at hz
  exact absurd hz (by norm_num)

lemma live_col_lt (p : Nat × Nat) (hp : p ∈ liveFinset (.mat m)) :
    p.2 < cols m - LifePy.colsDer m := by
  rcases (live_mem m p).1 hp with ⟨hi, hj, hc⟩
  by_contra hge
  have ht : cols m - 1 - p.2 < LifePy.colsDer m := by omega
  have hz := (colZero_iff m _).1 (colsDer_sat m _ ht) p.1 hi
  rw [show cols m - 1 - (cols m - 1 - p.2) = p.2 from by omega, hc] at hz
  exact absurd hz (by norm_num)

/-- On a grid with no live cell whose cells all lie in {0,1}, the top scan
consumes every row. -/
lemma filasSup_of_dead (hv : valid01 m) (hdead : ¬ hasLive m) :
    LifePy.filasSup m = m.length := by
  by_contra hne
  have hlt : LifePy.filasSup m < m.length := lt_of_le_of_ne (filasSup_le m) hne
  have hstop := filasSup_stop m hlt
  have : LifePy.rowZero m (LifePy.filasSup m) = true := by
    rw [rowZero_iff]
    intro c hc
    rcases cell01_of_valid m hv.2 hv.1 _ c hlt hc with h0 | h1
    · exact h0
    · exact absurd (Finset.nonempty_of_ne_empty (by
        intro hemp
        have : (LifePy.filasSup m, c) ∈ liveFinset (.mat m) :=
          (live_mem m _).2 ⟨hlt, hc, h1⟩
        rw [hemp] at this
        exact absurd this (Finset.not_mem_empty _))) hdead
  rw [hstop] at this
  exact absurd this (by norm_num)

lemma filasInf_of_dead (hv : valid01 m) (hdead : ¬ hasLive m) :
    LifePy.filasInf m = m.length := by
  by_contra hne
  have hlt : LifePy.filasInf m < m.length := lt_of_le_of_ne (filasInf_le m) hne
  have hstop := filasInf_stop m hlt
  have : LifePy.rowZero m (m.length - 1 - LifePy.filasInf m) = true := by
    rw [rowZero_iff]
    intro c hc
    rcases cell01_of_valid m hv.2 hv.1 (m.length - 1 - LifePy.filasInf m) c
        (by omega) hc with h0 | h1
    · exact h0
    · exact absurd ⟨_, (live_mem m (m.length - 1 - LifePy.filasInf m, c)).2
        ⟨by omega, hc, h1⟩⟩ hdead
  rw [hstop] at this
  exact absurd this (by norm_num)

end ReducirAnalysis

lemma reducir_dead (m : Mat) (hv : valid01 m) (hdead : ¬ hasLive m) :
    LifePy.reducir m = [[0]] := by
  unfold LifePy.reducir
  rw [if_pos]
  left
  rw [filasSup_of_dead m hv hdead, filasInf_of_dead m hv hdead]
  omega

lemma reducir_live (m : Mat) (hl : hasLive m) :
    LifePy.reducir m =
      (List.range (m.length - LifePy.filasInf m - LifePy.filasSup m)).map fun f =>
        (List.range (cols m - LifePy.colsDer m - LifePy.colsIzq m)).map fun c =>
          cellN m (LifePy.filasSup m + f) (LifePy.colsIzq m + c) := by
  rcases hl with ⟨p, hp⟩
  have h1 := live_row_ge m p hp
  have h2 := live_row_lt m p hp
  have h3 := live_col_ge m p hp
  have h4 := live_col_lt m p hp
  unfold LifePy.reducir
  rw [if_neg (by omega)]

lemma reducir_length_live (m : Mat) (hl : hasLive m) :
    (LifePy.reducir m).length =
      m.length - LifePy.filasInf m - LifePy.filasSup m := by
  rw [reducir_live m hl]
  simp

lemma reducir_cols_live (m : Mat) (hl : hasLive m) :
    cols (LifePy.reducir m) = cols m - LifePy.colsDer m - LifePy.colsIzq m := by
  rcases hl with ⟨p, hp⟩
  have h1 := live_row_ge m p hp
  have h2 := live_row_lt m p hp
  rw [reducir_live m ⟨p, hp⟩]
  exact cols_rmap _ _ _ (by omega)

lemma reducir_cell_live (m : Mat) (hl : hasLive m) (a b : Nat)
    (ha : a < m.length - LifePy.filasInf m - LifePy.filasSup m)
    (hb : b < cols m - LifePy.colsDer m - LifePy.colsIzq m) :
    cellN (LifePy.reducir m) a b =
      cellN m (LifePy.filasSup m + a) (LifePy.colsIzq m + b) := by
  rw [reducir_live m hl]
  exact cellN_rmap _ _ _ a b ha hb

lemma live_reducir (m : Mat) (hl : hasLive m) :
    liveFinset (.mat m) =
      (liveFinset (.mat (LifePy.reducir m))).image
        fun p => (p.1 + LifePy.filasSup m, p.2 + LifePy.colsIzq m) := by
  ext p
  constructor
  · intro hp
    have h1 := live_row_ge m p hp
    have h2 := live_row_lt m p hp
    have h3 := live_col_ge m p hp
    have h4 := live_col_lt m p hp
    rcases (live_mem m p).1 hp with ⟨hi, hj, hc⟩
    refine Finset.mem_image.2
      ⟨(p.1 - LifePy.filasSup m, p.2 - LifePy.colsIzq m), ?_, ?_⟩
    · refine (live_mem _ _).2 ⟨?_, ?_, ?_⟩
      · rw [reducir_length_live m hl]
        omega
      · rw [reducir_cols_live m hl]
        omega
      · rw [reducir_cell_live m hl _ _ (by omega) (by omega),
          show LifePy.filasSup m + (p.1 - LifePy.filasSup m) = p.1 from by omega,
          show LifePy.colsIzq m + (p.2 - LifePy.colsIzq m) = p.2 from by omega]
        exact hc
    · apply Prod.ext <;> simp <;> omega
  · intro hp
    rcases Finset.mem_image.1 hp with ⟨q, hq, rfl⟩
    rcases (live_mem _ q).1 hq with ⟨ha, hb, hc⟩
    rw [reducir_length_live m hl] at ha
    rw [reducir_cols_live m hl] at hb
    rw [reducir_cell_live m hl _ _ (by omega) (by omega)] at hc
    refine (live_mem m _).2 ⟨by simp; omega, by simp; omega, ?_⟩
    simpa [Nat.add_comm] using hc

lemma min_untop_image_add (T : Finset Nat) (a : Nat) (hT : T.Nonempty) :
    (((T.image fun x => x + a).min).untop' 0) = ((T.min).untop' 0) + a := by
  have h1 : (T.image fun x => x + a).Nonempty := hT.image _
  rw [← Finset.coe_min' hT, ← Finset.coe_min' h1, WithTop.untop'_coe, WithTop.untop'_coe]
  have hle : (T.image fun x => x + a).min' h1 = T.min' hT + a := by
    apply le_antisymm
    · exact Finset.min'_le _ _ (Finset.mem_image.2 ⟨T.min' hT, Finset.min'_mem T hT, rfl⟩)
    · apply Finset.le_min'
      intro y hy
      rcases Finset.mem_image.1 hy with ⟨x, hx, rfl⟩
      exact Nat.add_le_add_right (Finset.min'_le T x hx) a
  exact hle

lemma minFst_image_shift (S : Finset (Nat × Nat)) (hS : S.Nonempty) (a b : Nat) :
    minFst (S.image fun p => (p.1 + a, p.2 + b)) = minFst S + a := by
  unfold minFst
  rw [Finset.image_image]
  have h : ((fun p => Prod.fst p) ∘ fun p : Nat × Nat => (p.1 + a, p.2 + b))
      = (fun x => x + a) ∘ fun p : Nat × Nat => p.1 := rfl
  rw [show (Prod.fst ∘ fun p : Nat × Nat => (p.1 + a, p.2 + b))
      = ((fun x => x + a) ∘ Prod.fst) from rfl]
  rw [← Finset.image_image]
  exact min_untop_image_add (S.image Prod.fst) a (hS.image _)

lemma minSnd_image_shift (S : Finset (Nat × Nat)) (hS : S.Nonempty) (a b : Nat) :
    minSnd (S.image fun p => (p.1 + a, p.2 + b)) = minSnd S + b := by
  unfold minSnd
  rw [Finset.image_image]
  rw [show (Prod.snd ∘ fun p : Nat × Nat => (p.1 + a, p.2 + b))
      = ((fun x => x + b) ∘ Prod.snd) from rfl]
  rw [← Finset.image_image]
  exact min_untop_image_add (S.image Prod.snd) b (hS.image _)

lemma normPattern_shift (A B : NpArr) (a b : Nat)
    (h : liveFinset A = (liveFinset B).image fun p => (p.1 + a, p.2 + b)) :
    normPattern A = normPattern B := by
  unfold normPattern
  rcases (liveFinset B).eq_empty_or_nonempty with he | hne
  · rw [h, he]
    simp
  · rw [h, minFst_image_shift _ hne, minSnd_image_shift _ hne, Finset.image_image]
    apply Finset.image_congr
    intro p hp
    simp only [Function.comp]
    exact Prod.ext (by simp; omega) (by simp; omega)

lemma map_sum_eq_range_sum {α β : Type} [AddCommMonoid β] (f : α → β) (d : α) (l : List α) :
    (l.map f).sum = ∑ i in Finset.range l.length, f (l.getD i d) := by
  induction l with
  | nil => simp
  | cons a l ih =>
    rw [List.map_cons, List.sum_cons, List.length_cons, Finset.sum_range_succ']
    simp only [List.getD_cons_succ, List.getD_cons_zero]
    rw [ih, add_comm]

lemma contar_poblacion_eq_card (m : Mat) (hr : rectangular m) :
    LifePy.contar_poblacion m = (liveFinset (.mat m)).card := by
  unfold LifePy.contar_poblacion
  rw [map_sum_eq_range_sum _ [] m]
  rw [show liveFinset (.mat m) = (Finset.range m.length ×ˢ Finset.range (cols m)).filter
      (fun p => cellN m p.1 p.2 = 1) from rfl,
    Finset.card_filter, Finset.sum_product]
  apply Finset.sum_congr rfl
  intro i hi
  have hrow : (m.getD i []).length = cols m :=
    hr _ (getD_mem_of_lt m i [] (Finset.mem_range.1 hi))
  rw [countP_eq_range_sum _ (0 : Int) _, hrow]
  apply Finset.sum_congr rfl
  intro j hj
  simp [cellN]

lemma npsum_mat_eq_card (m : Mat) (hv : valid01 m) :
    GameOfLife.npsum (.mat m) = ((liveFinset (.mat m)).card : Int) := by
  show (m.map fun r => r.sum).sum = _
  rw [map_sum_eq_range_sum _ [] m]
  rw [show liveFinset (.mat m) = (Finset.range m.length ×ˢ Finset.range (cols m)).filter
      (fun p => cellN m p.1 p.2 = 1) from rfl,
    Finset.card_filter]
  push_cast
  rw [Finset.sum_product]
  apply Finset.sum_congr rfl
  intro i hi
  have hrow : (m.getD i []).length = cols m :=
    hv.1 _ (getD_mem_of_lt m i [] (Finset.mem_range.1 hi))
  rw [sum_eq_range_sum, hrow]
  apply Finset.sum_congr rfl
  intro j hj
  rcases cell01_of_valid m hv.2 hv.1 i j (Finset.mem_range.1 hi)
      (Finset.mem_range.1 hj) with h0 | h1
  · rw [show (m.getD i []).getD j 0 = cellN m i j from rfl, h0]
    norm_num
  · rw [show (m.getD i []).getD j 0 = cellN m i j from rfl, h1]
    norm_num

lemma not_hasLive_iff (m : Mat) : ¬ hasLive m ↔ liveFinset (.mat m) = ∅ := by
  unfold hasLive
  rw [Finset.not_nonempty_iff_eq_empty]

lemma shift_injective (a b : Nat) :
    Function.Injective fun p : Nat × Nat => (p.1 + a, p.2 + b) := by
  rintro ⟨x1, x2⟩ ⟨y1, y2⟩ hxy
  simp only [Prod.mk.injEq] at hxy
  exact Prod.ext (by omega) (by omega)

lemma card_live_reducir (m : Mat) (hl : hasLive m) :
    (liveFinset (.mat (LifePy.reducir m))).card = (liveFinset (.mat m)).card := by
  rw [live_reducir m hl,
    Finset.card_image_of_injective _ (shift_injective (LifePy.filasSup m) (LifePy.colsIzq m))]

lemma normPattern_reducir (m : Mat) (hv : valid01 m) :
    normPattern (.mat (LifePy.reducir m)) = normPattern (.mat m) := by
  by_cases hl : hasLive m
  · exact (normPattern_shift (.mat m) (.mat (LifePy.reducir m)) _ _ (live_reducir m hl)).symm
  · rw [reducir_dead m hv hl]
    unfold normPattern
    rw [(not_hasLive_iff m).1 hl]
    rw [show liveFinset (.mat [[0]]) = ∅ from by decide]

lemma reducir_valid (m : Mat) (hv : valid01 m) : valid01 (LifePy.reducir m) := by
  by_cases hl : hasLive m
  · constructor
    · rw [reducir_live m hl]
      exact rect_rmap _ _ _
    · rw [reducir_live m hl]
      apply cells01_rmap
      intro a ha b hb
      exact cell01_of_valid m hv.2 hv.1 _ _
        (by have := filasSup_le m; have := filasInf_le m; omega)
        (by have := colsIzq_le m; have := colsDer_le m; omega)
  · rw [reducir_dead m hv hl]
    refine ⟨by decide, by decide⟩

/-! ### The numpy reduce agrees with reducir -/

lemma emptyRow_eq_rowZero (s : Mat) (hr : rectangular s) (r : Nat) :
    GameOfLife.emptyRow s r = LifePy.rowZero s r := by
  unfold GameOfLife.emptyRow LifePy.rowZero
  by_cases hrn : r < s.length
  · have hlen : (s.getD r []).length = cols s := hr _ (getD_mem_of_lt s r [] hrn)
    rw [all_eq_range_all _ (0 : Int), hlen]
    rfl
  · have hnil : s.getD r [] = [] := by
      rw [List.getD_eq_getElem?_getD, List.getElem?_eq_none (by omega)]
      rfl
    rw [hnil]
    rw [show ([] : List Int).all (fun v => v == 0) = true from rfl]
    symm
    rw [List.all_eq_true]
    intro c hc
    have : cellN s r c = 0 := by
      unfold cellN
      rw [hnil]
      rfl
    simp [this]

lemma emptyCol_eq_colZero (s : Mat) (c : Nat) :
    GameOfLife.emptyCol s c = LifePy.colZero s c := rfl

lemma matrix_slice_eq (m : Mat) (a k c d : Nat)
    (hk : a + k ≤ m.length) (hrows : ∀ r ∈ m, c + d ≤ r.length) :
    ((m.drop a).take k).map (fun r => (r.drop c).take d) =
      (List.range k).map fun f => (List.range d).map fun b => cellN m (a + f) (c + b) := by
  apply List.ext_getElem?
  intro i
  by_cases hi : i < k
  · rw [List.getElem?_map, List.getElem?_take_of_lt hi, List.getElem?_drop,
      getElem?_eq_some_getD m (a + i) [] (by omega),
      List.getElem?_map, List.getElem?_range hi]
    simp only [Option.map_some', Option.some.injEq]
    have hrowmem : m.getD (a + i) [] ∈ m := getD_mem_of_lt m (a + i) [] (by omega)
    have hrlen : c + d ≤ (m.getD (a + i) []).length := hrows _ hrowmem
    apply List.ext_getElem?
    intro b
    by_cases hb : b < d
    · rw [List.getElem?_take_of_lt hb, List.getElem?_drop,
        getElem?_eq_some_getD _ (c + b) 0 (by omega),
        List.getElem?_map, List.getElem?_range hb]
      rfl
    · rw [List.getElem?_eq_none (by
          rw [List.length_take, List.length_drop]
          omega),
        List.getElem?_eq_none (by
          rw [List.length_map, List.length_range]
          omega)]
  · rw [List.getElem?_eq_none (by
        rw [List.length_map, List.length_take, List.length_drop]
        omega),
      List.getElem?_eq_none (by
        rw [List.length_map, List.length_range]
        omega)]

lemma expandMat_eq : GameOfLife.expandMat = LifePy.expandir := rfl

lemma reduce_eq (s : Mat) (hv : valid01 s) :
    GameOfLife.reduce s =
      if hasLive s then .mat (LifePy.reducir s) else .vec [0] := by
  unfold GameOfLife.reduce
  rw [funext fun r => emptyRow_eq_rowZero s hv.1 r,
    funext fun c => emptyCol_eq_colZero s c]
  dsimp only
  rw [show ((List.range s.length).takeWhile fun r => LifePy.rowZero s r).length
      = LifePy.filasSup s from rfl,
    show (((List.range s.length).map fun t => s.length - 1 - t).takeWhile
      fun r => LifePy.rowZero s r).length = LifePy.filasInf s from rfl,
    show ((List.range (cols s)).takeWhile fun c => LifePy.colZero s c).length
      = LifePy.colsIzq s from rfl,
    show (((List.range (cols s)).map fun t => cols s - 1 - t).takeWhile
      fun c => LifePy.colZero s c).length = LifePy.colsDer s from rfl]
  by_cases hl : hasLive s
  · rcases id hl with ⟨p, hp⟩
    have h1 := live_row_ge s p hp
    have h2 := live_row_lt s p hp
    have h3 := live_col_ge s p hp
    have h4 := live_col_lt s p hp
    have hfs := filasSup_le s
    have hfi := filasInf_le s
    have hci := colsIzq_le s
    have hcd := colsDer_le s
    rw [if_neg (by push_neg; constructor <;> omega), if_pos hl]
    congr 1
    rw [reducir_live s hl]
    rw [show ((s.length : Int) - 1 - (LifePy.filasInf s : Int) + 1
        - (LifePy.filasSup s : Int)).toNat
      = s.length - LifePy.filasInf s - LifePy.filasSup s from by omega]
    rw [show ((cols s : Int) - 1 - (LifePy.colsDer s : Int) + 1
        - (LifePy.colsIzq s : Int)).toNat
      = cols s - LifePy.colsDer s - LifePy.colsIzq s from by omega]
    apply matrix_slice_eq
    · omega
    · intro r hr
      rw [hv.1 r hr]
      omega
  · have hsup := filasSup_of_dead s hv hl
    have hinf := filasInf_of_dead s hv hl
    rw [if_pos (by left; omega), if_neg hl]

lemma evolucionar_valid (m : Mat) : valid01 (LifePy.evolucionar m) := by
  constructor
  · unfold LifePy.evolucionar
    dsimp only
    exact rect_rmap _ _ _
  · unfold LifePy.evolucionar
    dsimp only
    apply cells01_rmap
    intro i hi j hj
    dsimp only
    split_ifs <;> simp

lemma evolve_mat (g : GameOfLife) (s : Mat) (hs : g.state = .mat s) :
    GameOfLife.evolve g = some { g with
      state := GameOfLife.reduce (GameOfLife.newStateOf (GameOfLife.expandMat s)),
      generation := g.generation + 1 } := by
  rcases g with ⟨st, gen, mx, dc, lc⟩
  cases st with
  | vec v => exact absurd hs (by simp)
  | mat s2 =>
    have h2 : s2 = s := by simpa using hs
    subst h2
    rfl

lemma npStep_state (s : Mat) (hv : valid01 s) :
    GameOfLife.reduce (GameOfLife.newStateOf (GameOfLife.expandMat s)) =
      if hasLive (LifePy.evolucionar s) then NpArr.mat (LifePy.step s)
      else NpArr.vec [0] := by
  rw [expandMat_eq, newStateOf_eq_conwayMap _ (expandir_valid s hv),
    ← evolucionar_eq_conwayMap s hv, reduce_eq _ (evolucionar_valid s)]
  rfl

/-! ### Claim C1 — one step is expand, simultaneous rule, trim -/

/-- C1: for every well-formed grid, one step produces exactly the grid
obtained by adding a one-cell DEAD border (specExpand), applying the Conway
rule to every cell simultaneously against that unmodified expanded snapshot
(conwayMap, whose neighbour counts mooreCount read only the snapshot), and
then trimming dead borders with the revision's reduce; the trim step
changes no live cell, only the offset (normPattern preserved).  This holds
for the nested-loop revision and for the convolution revision. -/
theorem C1_step_synchronous (g : Mat) (hv : valid01 g) :
    LifePy.evolucionar g = conwayMap (specExpand g) ∧
    LifePy.step g = LifePy.reducir (conwayMap (specExpand g)) ∧
    (∀ G : GameOfLife, G.state = .mat g →
      ∃ G2, GameOfLife.evolve G = some G2 ∧
        G2.state = GameOfLife.reduce (conwayMap (specExpand g))) ∧
    normPattern (.mat (LifePy.step g)) = normPattern (.mat (conwayMap (specExpand g))) := by
  have h1 : LifePy.evolucionar g = conwayMap (specExpand g) := by
    rw [specExpand_eq_expandir g hv.1]
    exact evolucionar_eq_conwayMap g hv
  refine ⟨h1, ?_, ?_, ?_⟩
  · unfold LifePy.step
    rw [h1]
  · intro G hG
    refine ⟨_, evolve_mat G g hG, ?_⟩
    show GameOfLife.reduce (GameOfLife.newStateOf (GameOfLife.expandMat g))
      = GameOfLife.reduce (conwayMap (specExpand g))
    rw [expandMat_eq, newStateOf_eq_conwayMap _ (expandir_valid g hv),
      specExpand_eq_expandir g hv.1]
  · show normPattern (.mat (LifePy.reducir (LifePy.evolucionar g))) = _
    rw [normPattern_reducir _ (evolucionar_valid g), h1]

/-- Witness for C1 at the blinker. -/
theorem C1_step_synchronous_witness :
    valid01 [[0, 1, 0], [0, 1, 0], [0, 1, 0]] ∧
    LifePy.evolucionar [[0, 1, 0], [0, 1, 0], [0, 1, 0]] =
      conwayMap (specExpand [[0, 1, 0], [0, 1, 0], [0, 1, 0]]) := by
  constructor
  · decide
  · exact (C1_step_synchronous [[0, 1, 0], [0, 1, 0], [0, 1, 0]] (by decide)).1

/-! ### Claim C9 — neighbour counting -/

/-- C9: for every well-formed grid and in-bounds position, the neighbour
count used by a step — contar_vecinos in the loop revision, the convolution
entry in the numpy revision — equals mooreCount, the number of ALIVE cells
among the at-most-8 Moore positions with out-of-bounds positions DEAD (no
wraparound), and lies in [0, 8]. -/
theorem C9_neighbor_count (g : Mat) (hv : valid01 g) (i j : Nat)
    (hi : i < g.length) (hj : j < cols g) :
    LifePy.contar_vecinos g (i : Int) (j : Int) = mooreCount g (i : Int) (j : Int) ∧
    mooreCount g (i : Int) (j : Int) ≤ 8 ∧
    cellN (GameOfLife.count_neighbors g) i j = (mooreCount g (i : Int) (j : Int) : Int) := by
  refine ⟨contar_eq_moore g _ _, mooreCount_le_eight g _ _, ?_⟩
  rw [count_neighbors_cell g i j hi hj]
  exact convEntry_eq_moore g hv.2 hv.1 i j

/-- Witness for C9 at the centre of the block. -/
theorem C9_neighbor_count_witness :
    valid01 [[1, 1], [1, 1]] ∧ (0 : Nat) < ([[1, 1], [1, 1]] : Mat).length ∧
    (0 : Nat) < cols [[1, 1], [1, 1]] ∧
    (LifePy.contar_vecinos [[1, 1], [1, 1]] 0 0 = mooreCount [[1, 1], [1, 1]] 0 0 ∧
     mooreCount [[1, 1], [1, 1]] 0 0 ≤ 8 ∧
     cellN (GameOfLife.count_neighbors [[1, 1], [1, 1]]) 0 0 =
       (mooreCount [[1, 1], [1, 1]] 0 0 : Int)) := by
  refine ⟨by decide, by decide, by decide, ?_⟩
  exact C9_neighbor_count [[1, 1], [1, 1]] (by decide) 0 0 (by decide) (by decide)

/-! ### Claim C7 — the two revisions agree except for the extinction
representation -/

/-- C7 counterexample: on [[1]] the step of life.py produces the 1×1 matrix
[[0]] while the numpy revision's step leaves the 1-dimensional state [0] —
not the same cell matrix. -/
theorem C7_counterexample :
    LifePy.step [[1]] = [[0]] ∧
    GameOfLife.evolve { state := NpArr.mat [[1]] } =
      some { state := NpArr.vec [0], generation := 1 } ∧
    NpArr.vec [0] ≠ NpArr.mat (LifePy.step [[1]]) := by
  decide

/-- C7 as amended: on every well-formed grid the two revisions compute the
same pre-trim matrix (the rule applied against the same expanded snapshot),
and whenever the step result has a live cell the full steps agree — the
numpy state is exactly .mat of the life.py step; when the step
exterminates every cell, life.py collapses to [[0]] while the numpy
revision sets the 1-dimensional state [0]. -/
theorem C7_step_equivalence (g : Mat) (hv : valid01 g) :
    GameOfLife.newStateOf (GameOfLife.expandMat g) = LifePy.evolucionar g ∧
    (∀ G : GameOfLife, G.state = .mat g →
      ∃ G2, GameOfLife.evolve G = some G2 ∧
        G2.state = (if hasLive (LifePy.evolucionar g) then NpArr.mat (LifePy.step g)
          else NpArr.vec [0])) ∧
    (¬ hasLive (LifePy.evolucionar g) → LifePy.step g = [[0]]) := by
  refine ⟨?_, ?_, ?_⟩
  · rw [expandMat_eq, newStateOf_eq_conwayMap _ (expandir_valid g hv)]
    exact (evolucionar_eq_conwayMap g hv).symm
  · intro G hG
    refine ⟨_, evolve_mat G g hG, ?_⟩
    show GameOfLife.reduce (GameOfLife.newStateOf (GameOfLife.expandMat g)) = _
    exact npStep_state g hv
  · intro hdead
    exact reducir_dead _ (evolucionar_valid g) hdead

/-- Witness for C7 at the blinker, whose step has live cells. -/
theorem C7_step_equivalence_witness :
    valid01 [[0, 1, 0], [0, 1, 0], [0, 1, 0]] ∧
    GameOfLife.newStateOf (GameOfLife.expandMat [[0, 1, 0], [0, 1, 0], [0, 1, 0]]) =
      LifePy.evolucionar [[0, 1, 0], [0, 1, 0], [0, 1, 0]] := by
  constructor
  · decide
  · exact (C7_step_equivalence [[0, 1, 0], [0, 1, 0], [0, 1, 0]] (by decide)).1

/-! ### Claim C8 — conservation under expand then reduce -/

lemma live_expandir (g : Mat) :
    liveFinset (.mat (LifePy.expandir g)) =
      (liveFinset (.mat g)).image fun p => (p.1 + 1, p.2 + 1) := by
  ext p
  rw [live_mem (LifePy.expandir g) p, expandir_length, expandir_cols]
  constructor
  · rintro ⟨hi, hj, hc⟩
    rw [expandir_cell g p.1 p.2 hi hj] at hc
    by_cases hin : 1 ≤ p.1 ∧ p.1 ≤ g.length ∧ 1 ≤ p.2 ∧ p.2 ≤ cols g
    · rw [if_pos hin] at hc
      refine Finset.mem_image.2
        ⟨(p.1 - 1, p.2 - 1), (live_mem g _).2 ⟨by omega, by omega, hc⟩, ?_⟩
      exact Prod.ext (by simp; omega) (by simp; omega)
    · rw [if_neg hin] at hc
      exact absurd hc (by norm_num)
  · intro hp
    rcases Finset.mem_image.1 hp with ⟨q, hq, rfl⟩
    rcases (live_mem g q).1 hq with ⟨h1, h2, h3⟩
    refine ⟨by simp; omega, by simp; omega, ?_⟩
    rw [expandir_cell g _ _ (by simp; omega) (by simp; omega),
      if_pos (by constructor <;> simp <;> omega)]
    simpa using h3

lemma card_live_reducir_all (m : Mat) (hv : valid01 m) :
    (liveFinset (.mat (LifePy.reducir m))).card = (liveFinset (.mat m)).card := by
  by_cases hl : hasLive m
  · exact card_live_reducir m hl
  · rw [reducir_dead m hv hl, (not_hasLive_iff m).1 hl,
      show liveFinset (.mat [[0]]) = ∅ from by decide]

/-- C8: whenever g has no live cell on its outer border, reduce(expand(g))
has the same population as g and the same relative pattern of live cells
(the normalised live pattern is identical), in both revisions. -/
theorem C8_expand_reduce (g : Mat) (hv : valid01 g) (hb : borderDead g) :
    LifePy.contar_poblacion (LifePy.reducir (LifePy.expandir g)) =
      LifePy.contar_poblacion g ∧
    normPattern (.mat (LifePy.reducir (LifePy.expandir g))) = normPattern (.mat g) ∧
    GameOfLife.npsum (GameOfLife.reduce (GameOfLife.expandMat g)) =
      GameOfLife.npsum (.mat g) ∧
    normPattern (GameOfLife.reduce (GameOfLife.expandMat g)) = normPattern (.mat g) := by
  have hvE : valid01 (LifePy.expandir g) := expandir_valid g hv
  have hlive : liveFinset (.mat (LifePy.expandir g)) =
      (liveFinset (.mat g)).image fun p => (p.1 + 1, p.2 + 1) := live_expandir g
  have hcardE : (liveFinset (.mat (LifePy.expandir g))).card
      = (liveFinset (.mat g)).card := by
    rw [hlive, Finset.card_image_of_injective _ (shift_injective 1 1)]
  have hnormE : normPattern (.mat (LifePy.expandir g)) = normPattern (.mat g) :=
    normPattern_shift _ _ 1 1 hlive
  have hgdead : ¬ hasLive (LifePy.expandir g) → liveFinset (.mat g) = ∅ := by
    intro hl
    have hE0 := (not_hasLive_iff _).1 hl
    rw [hlive] at hE0
    exact Finset.image_eq_empty.1 hE0
  refine ⟨?_, ?_, ?_, ?_⟩
  · rw [contar_poblacion_eq_card _ (reducir_valid _ hvE).1,
      card_live_reducir_all _ hvE, hcardE, ← contar_poblacion_eq_card g hv.1]
  · rw [normPattern_reducir _ hvE, hnormE]
  · rw [expandMat_eq, reduce_eq _ hvE]
    by_cases hl : hasLive (LifePy.expandir g)
    · rw [if_pos hl, npsum_mat_eq_card _ (reducir_valid _ hvE),
        card_live_reducir_all _ hvE, hcardE, ← npsum_mat_eq_card g hv]
    · rw [if_neg hl, show GameOfLife.npsum (.vec [0]) = 0 from rfl,
        npsum_mat_eq_card g hv, hgdead hl]
      simp
  · rw [expandMat_eq, reduce_eq _ hvE]
    by_cases hl : hasLive (LifePy.expandir g)
    · rw [if_pos hl, normPattern_reducir _ hvE, hnormE]
    · rw [if_neg hl]
      unfold normPattern
      rw [hgdead hl, show liveFinset (.vec [0]) = ∅ from by decide]

instance (m : Mat) : Decidable (borderDead m) := by
  unfold borderDead
  infer_instance

/-- Witness for C8 at a single live cell surrounded by a dead ring. -/
theorem C8_expand_reduce_witness :
    valid01 [[0, 0, 0], [0, 1, 0], [0, 0, 0]] ∧
    borderDead [[0, 0, 0], [0, 1, 0], [0, 0, 0]] ∧
    LifePy.contar_poblacion
        (LifePy.reducir (LifePy.expandir [[0, 0, 0], [0, 1, 0], [0, 0, 0]])) =
      LifePy.contar_poblacion [[0, 0, 0], [0, 1, 0], [0, 0, 0]] := by
  refine ⟨by decide, by decide, ?_⟩
  exact (C8_expand_reduce [[0, 0, 0], [0, 1, 0], [0, 0, 0]]
    (by decide) (by decide)).1

/-! ### Claim C5 — the driver stops exactly at extinction or exhaustion -/

lemma evolve_preserves (g : GameOfLife) (s : Mat) (hs : g.state = .mat s)
    (hv : valid01 s) :
    ∃ G2, GameOfLife.evolve g = some G2 ∧
      G2.generation = g.generation + 1 ∧
      G2.max_generations = g.max_generations ∧
      ((∃ s2, G2.state = .mat s2 ∧ valid01 s2 ∧ GameOfLife.population G2 ≠ 0) ∨
        (G2.state = .vec [0] ∧ GameOfLife.population G2 = 0)) := by
  refine ⟨_, evolve_mat g s hs, rfl, rfl, ?_⟩
  have hst := npStep_state s hv
  by_cases hl : hasLive (LifePy.evolucionar s)
  · rw [if_pos hl] at hst
    left
    refine ⟨LifePy.step s, hst, reducir_valid _ (evolucionar_valid s), ?_⟩
    show GameOfLife.npsum
      (GameOfLife.reduce (GameOfLife.newStateOf (GameOfLife.expandMat s))) ≠ 0
    rw [hst, npsum_mat_eq_card (LifePy.step s)
      (by unfold LifePy.step; exact reducir_valid _ (evolucionar_valid s))]
    have hcard : (liveFinset (.mat (LifePy.step s))).card
        = (liveFinset (.mat (LifePy.evolucionar s))).card := by
      unfold LifePy.step
      exact card_live_reducir_all _ (evolucionar_valid s)
    have hpos : 0 < (liveFinset (.mat (LifePy.evolucionar s))).card :=
      Finset.card_pos.2 hl
    omega
  · rw [if_neg hl] at hst
    right
    refine ⟨hst, ?_⟩
    show GameOfLife.npsum
      (GameOfLife.reduce (GameOfLife.newStateOf (GameOfLife.expandMat s))) = 0
    rw [hst]
    rfl

lemma evolveN_succ_of_evolve (g G1 : GameOfLife)
    (h : GameOfLife.evolve g = some G1) (t : Nat) :
    GameOfLife.evolveN (t + 1) g = GameOfLife.evolveN t G1 := by
  show (match GameOfLife.evolve g with
    | none => none
    | some g1 => GameOfLife.evolveN t g1) = GameOfLife.evolveN t G1
  rw [h]

/-- C5 (code evidence): the driver's stepping stops at extinction — no
further evolve happens — but the extinction branch does not return the
report: from the validly constructed grid [[1]] with generation limit 3,
the first step reaches population 0 with the 1-dimensional state [0],
str(self) on that state raises TypeError (toText none), and run_simulation
therefore raises instead of returning the WARN outcome. -/
theorem C5_driver_crash :
    GameOfLife.evolve { state := NpArr.mat [[1]] } =
      some { state := NpArr.vec [0], generation := 1 } ∧
    GameOfLife.population { state := NpArr.vec [0], generation := 1 } = 0 ∧
    GameOfLife.toText { state := NpArr.vec [0], generation := 1 } = none ∧
    GameOfLife.run_simulation { state := NpArr.mat [[1]] } 3 = none := by
  decide
